import Mathlib

/-!
Shallow embedding of the server-selection and resilient-measurement core of
`src/netlogger.py`: the endpoint cache (`load_cached_servers`,
`save_cached_servers`), endpoint discovery (`discover_servers`), the
last-good tracker (`load_last_good`, `save_last_good`) and the measurement
runner (`run_speedtest_dynamic`).

External effects are passed in explicitly: the upstream directory query is a
function from query index to an optional candidate batch (`none` models the
query raising), `random.shuffle` is an arbitrary list permutation supplied by
the caller, a measurement attempt is a function from endpoint and try number
to an optional outcome (`none` models the attempt raising), and file writes
are modelled as succeeding (the Python code swallows write failures; claims
about writes are stated about the write the code performs).  Python floats
are modelled as exact rationals.
-/

set_option autoImplicit false

namespace Netlogger

/-- Result of `int(str(x))` on the `id` field of a JSON record: `ok n` when the
conversion succeeds with value `n`, `bad` when it raises (missing key,
non-numeric text, and so on). -/
inductive IdField where
  | ok (n : Int)
  | bad
deriving DecidableEq, Repr

/-- A raw JSON endpoint record as read from the cache file or from the
upstream directory: every field may be missing (`s.get(...)` returns `None`),
and the id may fail to parse. -/
structure RawEntry where
  id : IdField
  sponsor : Option String
  name : Option String
  country : Option String
deriving DecidableEq, Repr

/-- A validated endpoint as built by the Python code: an integer id together
with the raw (possibly missing) descriptive fields. -/
structure Endpoint where
  id : Int
  sponsor : Option String
  name : Option String
  country : Option String
deriving DecidableEq, Repr

/-- The JSON object stored in the server cache file; either provider key may
be absent (`data.get(...)` returns `None`). -/
structure RawStore where
  etisalat : Option (List RawEntry)
  du : Option (List RawEntry)
deriving DecidableEq, Repr

/-- A categorized endpoint pool, the return value of `load_cached_servers`
and `discover_servers`. -/
structure Pool where
  etisalat : List Endpoint
  du : List Endpoint
deriving DecidableEq, Repr

/-- The two provider keys used by the system. -/
inductive Provider where
  | etisalat
  | du
deriving DecidableEq, Repr

/-- `servers.get(target, [])` for the two provider keys. -/
def Pool.get (p : Pool) : Provider → List Endpoint
  | .etisalat => p.etisalat
  | .du => p.du

/-- The string key of a provider, as used in the JSON files. -/
def Provider.key : Provider → String
  | .etisalat => "etisalat"
  | .du => "du"

/-- Does the needle character list occur at the head of the hay list? -/
def startsWithChars : List Char → List Char → Bool
  | [], _ => true
  | _ :: _, [] => false
  | a :: as, b :: bs => a == b && startsWithChars as bs

/-- Does the needle character list occur anywhere in the hay list? -/
def occursInChars : List Char → List Char → Bool
  | [], needle => needle.isEmpty
  | h :: t, needle => startsWithChars needle (h :: t) || occursInChars t needle

/-- Python's `needle in hay` substring test. -/
def strContains (hay needle : String) : Bool :=
  occursInChars hay.data needle.data

/-- Python's `str.lower()`. -/
def strLower (s : String) : String :=
  String.mk (s.data.map Char.toLower)

/-- Python's `str.capitalize()`: first character upper-cased, the rest
lower-cased. -/
def pyCapitalize (s : String) : String :=
  match s.data with
  | [] => ""
  | c :: cs => String.mk (c.toUpper :: cs.map Char.toLower)

/-- Python's `round` to the nearest integer, ties to even, on an exact
rational. -/
def pyRound0 (q : ℚ) : ℤ :=
  let f := ⌊q⌋
  let frac := q - f
  if frac < 1/2 then f
  else if 1/2 < frac then f + 1
  else if f % 2 = 0 then f else f + 1

/-- Python's `round(q, 2)` on an exact rational. -/
def pyRound2 (q : ℚ) : ℚ :=
  (pyRound0 (q * 100) : ℚ) / 100

/- ========= SERVER CACHE (src/netlogger.py lines 125-158) ========= -/

/-- The inner `_ok` filter of `load_cached_servers`: for each raw entry, keep
it when `int(str(s.get("id")).strip())` succeeds with a value `≥ 1000`
(building the validated endpoint), and drop it silently otherwise.
`lst.getD []` is the `lst or []` guard. -/
def okFilter (lst : Option (List RawEntry)) : List Endpoint :=
  (lst.getD []).filterMap fun s =>
    match s.id with
    | IdField.ok sid =>
        if 1000 ≤ sid then some ⟨sid, s.sponsor, s.name, s.country⟩ else none
    | IdField.bad => none

/-- `load_cached_servers()`.  The backing store is `none` when the file is
missing, unreadable or malformed JSON (the `try` swallows those into
`None`), and `some data` when `json.load` succeeds.  Returns `none` unless
both filtered provider lists are non-empty. -/
def load_cached_servers (store : Option RawStore) : Option Pool :=
  match store with
  | none => none
  | some data =>
    let e := okFilter data.etisalat
    let d := okFilter data.du
    if e.isEmpty || d.isEmpty then none else some ⟨e, d⟩

/-- The store content written by `save_cached_servers({"etisalat": [], "du": []})`
— the cache invalidation record. -/
def emptyRawStore : RawStore := ⟨some [], some []⟩

/-- Serialization of a validated endpoint back to a raw record, as
`json.dumps` writes it. -/
def endpointToRaw (e : Endpoint) : RawEntry :=
  ⟨IdField.ok e.id, e.sponsor, e.name, e.country⟩

/-- Serialization of a pool, as `save_cached_servers` writes it. -/
def poolToRawStore (p : Pool) : RawStore :=
  ⟨some (p.etisalat.map endpointToRaw), some (p.du.map endpointToRaw)⟩

/- ========= LAST-GOOD TRACKER (src/netlogger.py lines 23-41) ========= -/

/-- The state of the `last_good_server.json` file: missing, present but
unreadable/malformed, or holding a JSON object mapping provider keys to
endpoint records. -/
inductive StoreState where
  | absent
  | corrupt
  | ok (d : List (String × Endpoint))
deriving DecidableEq, Repr

/-- `load_last_good()`: the stored dictionary when the file exists and
parses, the empty dictionary otherwise (missing file, or any exception). -/
def load_last_good : StoreState → List (String × Endpoint)
  | .ok d => d
  | _ => []

/-- Python dictionary assignment `d[k] = v`: overwrite the value at an
existing key in place, otherwise append the new pair at the end. -/
def dictSet (d : List (String × Endpoint)) (k : String) (v : Endpoint) :
    List (String × Endpoint) :=
  if d.any (fun p => p.1 == k) then
    d.map (fun p => if p.1 == k then (k, v) else p)
  else d ++ [(k, v)]

/-- Outcome of the write step of `save_last_good`.  The code does
`open(LAST_GOOD_FILE, "w")` — which truncates the file — and only then
`json.dump`: `openFail` models `open` itself raising (file untouched),
`dumpFail` models a failure after the truncating open (the file is left
truncated or partially written, so a later `json.load` raises — the store
is corrupt), and `success` models a complete write.  Every exception is
swallowed by the `except`. -/
inductive WriteResult where
  | success
  | openFail
  | dumpFail
deriving DecidableEq, Repr

/-- `save_last_good(isp, server_info)`: read the whole record (empty on read
failure), set the provider's entry, then write the record back by opening
the file with truncation and dumping.  A failure at `open` leaves the store
as it was; a failure after the truncating open leaves it corrupt. -/
def save_last_good (isp : String) (e : Endpoint) (st : StoreState)
    (w : WriteResult) : StoreState :=
  let data := dictSet (load_last_good st) isp e
  match w with
  | .success => .ok data
  | .openFail => st
  | .dumpFail => .corrupt

/- ========= DISCOVER SERVERS (src/netlogger.py lines 161-195) ========= -/

/-- Region markers matched against the candidate's lower-cased country. -/
def regionKeywords : List String := ["united arab", "uae", "u.a.e"]

/-- Keywords bucketing a candidate to etisalat. -/
def etKeywords : List String := ["e&", "etisalat", "emirates tele"]

/-- Keywords bucketing a candidate to du. -/
def duKeywords : List String := ["du", "eitc"]

/-- The region filter: `any(k in c for k in ["united arab","uae","u.a.e"])`
on the lower-cased country (missing country becomes `""`). -/
def regionMatch (c : RawEntry) : Bool :=
  regionKeywords.any fun k => strContains (strLower (c.country.getD "")) k

/-- Keyword test against the lower-cased sponsor and name:
`any(k in sp or k in nm for k in kws)`. -/
def keywordMatch (kws : List String) (c : RawEntry) : Bool :=
  kws.any fun k =>
    strContains (strLower (c.sponsor.getD "")) k ||
    strContains (strLower (c.name.getD "")) k

/-- The classification loop of `discover_servers` over the flattened batch of
upstream candidates.  A candidate failing the region filter is skipped
(`continue`); for a region-matching candidate, `int(str(s["id"]))` runs, and
if it raises the exception propagates to the one `except` wrapping the whole
function — so the entire classification aborts, modelled by `none`.
Otherwise the candidate is appended to the etisalat bucket, else the du
bucket, else discarded. -/
def classifyBatch : List RawEntry → Option (List Endpoint × List Endpoint)
  | [] => some ([], [])
  | c :: rest =>
    if regionMatch c then
      match c.id with
      | IdField.bad => none
      | IdField.ok sid =>
        match classifyBatch rest with
        | none => none
        | some (et, d) =>
          let info : Endpoint := ⟨sid, c.sponsor, c.name, c.country⟩
          if keywordMatch etKeywords c then some (info :: et, d)
          else if keywordMatch duKeywords c then some (et, info :: d)
          else some (et, d)
    else classifyBatch rest

/-- Hardcoded etisalat fallback endpoint (line 186). -/
def fallbackEt : Endpoint := ⟨34239, some "e& UAE", some "Alain", some "UAE"⟩

/-- Hardcoded du fallback endpoint (line 188). -/
def fallbackDu : Endpoint := ⟨1692, some "du", some "Abu Dhabi", some "UAE"⟩

/-- One invocation of `discover_servers()`.  `upstream qi` is the result of
the `qi`-th upstream directory query of the enclosing run (`none` when
`safe_speedtest`/`get_servers` raises); the returned triple is the pool, the
cache store after the call, and the next query index.  When the cache loads
a pool it is returned with no network call; otherwise the batch is
classified, empty buckets are replaced by the fallback endpoint, and the
pool is saved and returned.  Any exception (query failure or classification
abort) yields the all-empty pool and leaves the cache unwritten. -/
def discover_servers (upstream : ℕ → Option (List RawEntry)) (qi : ℕ)
    (cache : Option RawStore) : Pool × Option RawStore × ℕ :=
  match load_cached_servers cache with
  | some p => (p, cache, qi)
  | none =>
    match upstream qi with
    | none => (⟨[], []⟩, cache, qi + 1)
    | some batch =>
      match classifyBatch batch with
      | none => (⟨[], []⟩, cache, qi + 1)
      | some (et, d) =>
        let et2 := if et.isEmpty then [fallbackEt] else et
        let d2 := if d.isEmpty then [fallbackDu] else d
        let p : Pool := ⟨et2, d2⟩
        (p, some (poolToRawStore p), qi + 1)

/- ========= SPEEDTEST RUNNER (src/netlogger.py lines 198-266) ========= -/

/-- The observable data of one successful measurement attempt: the best
server's reported latency (`best.get("latency")`, `none` when missing),
download and upload throughput in bits/sec, and the rounded wall-clock
duration of the transfer phases. -/
structure Outcome where
  latency : Option ℚ
  down : ℚ
  up : ℚ
  duration : ℚ
deriving DecidableEq, Repr

/-- The result dictionary built on a successful attempt (the random
`test_id` is omitted from the model). -/
structure MeasResult where
  target_isp : String
  speedtest_server : Option String
  speedtest_sponsor : Option String
  speedtest_country : Option String
  server_id : Int
  latency_ms : Option ℚ
  download_mbps : ℚ
  upload_mbps : ℚ
  duration_s : ℚ
  threads_used : ℕ
deriving DecidableEq, Repr

/-- The `res = {...}` dictionary of lines 234-246: descriptive fields are
copied from the chosen candidate `ch`, `latency_ms` is
`round(lat, 2) if lat else None` (so a missing or zero latency both yield
`None`), and throughputs are converted from bits/sec and rounded. -/
def buildResult (target : Provider) (threads : ℕ) (ch : Endpoint)
    (o : Outcome) : MeasResult where
  target_isp := pyCapitalize target.key
  speedtest_server := ch.name
  speedtest_sponsor := ch.sponsor
  speedtest_country := ch.country
  server_id := ch.id
  latency_ms :=
    match o.latency with
    | some l => if l ≠ 0 then some (pyRound2 l) else none
    | none => none
  download_mbps := pyRound2 (o.down / 1000000)
  upload_mbps := pyRound2 (o.up / 1000000)
  duration_s := o.duration
  threads_used := threads

/-- One logged measurement attempt: the endpoint tried, the 1-based try
number, and whether it succeeded. -/
structure AttemptRec where
  endpoint : Endpoint
  tryNo : ℕ
  ok : Bool
deriving DecidableEq, Repr

/-- Events of the discovery and self-healing phases of a run. -/
inductive Event where
  | discovery (p : Pool)
  | invalidate
  | sleepSecs (n : ℕ)
deriving DecidableEq, Repr

/-- The inner retry loop `for a in range(1, retries+1)` on one candidate,
starting at try number `a` with `remaining` tries left: returns the outcome
of the first successful try (if any), the number of failed tries, and the
attempt log. -/
def tryFrom (attempt : Endpoint → ℕ → Option Outcome) (ch : Endpoint) :
    ℕ → ℕ → Option Outcome × ℕ × List AttemptRec
  | _, 0 => (none, 0, [])
  | a, r + 1 =>
    match attempt ch a with
    | some o => (some o, 0, [⟨ch, a, true⟩])
    | none =>
      ((tryFrom attempt ch (a + 1) r).1,
       (tryFrom attempt ch (a + 1) r).2.1 + 1,
       ⟨ch, a, false⟩ :: (tryFrom attempt ch (a + 1) r).2.2)

/-- The outer loop `for ch in cand[:3]` (applied to the already-truncated
list): stops at the first candidate with a successful try, accumulating the
shared failure counter and the attempt log across candidates. -/
def candLoop (attempt : Endpoint → ℕ → Option Outcome) (retries : ℕ) :
    List Endpoint → Option (Endpoint × Outcome) × ℕ × List AttemptRec
  | [] => (none, 0, [])
  | ch :: rest =>
    match tryFrom attempt ch 1 retries with
    | (some o, f, log) => (some (ch, o), f, log)
    | (none, f, log) =>
      ((candLoop attempt retries rest).1,
       f + (candLoop attempt retries rest).2.1,
       log ++ (candLoop attempt retries rest).2.2)

/-- The explicit inputs of one `run_speedtest_dynamic(target, retries)`
invocation: the initial cache and last-good stores, the upstream query
oracle, the shuffle outcome (a caller-supplied list transformation standing
for one outcome of `random.shuffle`), the attempt oracle, and whether the
last-good write succeeds. -/
structure RunInput where
  target : Provider
  retries : ℕ
  threads : ℕ
  cache0 : Option RawStore
  lastGood0 : StoreState
  upstream : ℕ → Option (List RawEntry)
  shuffle : List Endpoint → List Endpoint
  attempt : Endpoint → ℕ → Option Outcome
  lastGoodWrite : WriteResult

/-- The observable behaviour of one run: the discovery-phase events, the
effective candidate order (the list the `for ch in cand[:3]` loop iterates
over, before truncation), the attempt log, the final failure counter, the
successful candidate and outcome (if any), the returned result, the
self-healing-phase events, the cache store and query index after the
discovery phase, and the final cache and last-good stores. -/
structure RunOutput where
  discPhase : List Event
  candOrder : List Endpoint
  attemptLog : List AttemptRec
  failures : ℕ
  success : Option (Endpoint × Outcome)
  result : Option MeasResult
  healPhase : List Event
  cacheMid : Option RawStore
  queryMid : ℕ
  cacheFinal : Option RawStore
  lastGoodFinal : StoreState

/-- The discovery phase of the runner (lines 200-207): one discovery call;
if the target's candidate list is empty, invalidate the cache, sleep 3
seconds, and discover once more.  Returns the phase events, the candidate
list, and the cache store and query index afterwards. -/
def discPhaseRun (inp : RunInput) :
    List Event × List Endpoint × Option RawStore × ℕ :=
  let r1 := discover_servers inp.upstream 0 inp.cache0
  let cand1 := r1.1.get inp.target
  if cand1.isEmpty then
    let r2 := discover_servers inp.upstream r1.2.2 (some emptyRawStore)
    ([Event.discovery r1.1, Event.invalidate, Event.sleepSecs 3,
      Event.discovery r2.1],
     r2.1.get inp.target, r2.2.1, r2.2.2)
  else ([Event.discovery r1.1], cand1, r1.2.1, r1.2.2)

/-- The candidate-ordering step (lines 209-216): prepend the last-good
endpoint (dropping later candidates with the same id) when the tracker has
one, then apply the shuffle outcome to the whole list. -/
def effectiveOrder (inp : RunInput) (cand : List Endpoint) : List Endpoint :=
  let cand2 :=
    match (load_last_good inp.lastGood0).lookup inp.target.key with
    | some lg => lg :: cand.filter (fun c => c.id != lg.id)
    | none => cand
  inp.shuffle cand2

/-- The attempt loop and the epilogue of the runner (lines 220-266): run the
retry/failover loop on the first three candidates; on success build the
result, update the last-good tracker and return; on total failure, when the
failure counter reaches `retries * 2`, invalidate the cache and run
discovery once more (result discarded), then return `none`. -/
def finishRun (inp : RunInput) (dp : List Event) (cand3 : List Endpoint)
    (c2 : Option RawStore) (q2 : ℕ) : RunOutput :=
  match candLoop inp.attempt inp.retries (cand3.take 3) with
  | (some (ch, o), f, log) =>
    { discPhase := dp, candOrder := cand3, attemptLog := log, failures := f,
      success := some (ch, o),
      result := some (buildResult inp.target inp.threads ch o),
      healPhase := [], cacheMid := c2, queryMid := q2, cacheFinal := c2,
      lastGoodFinal :=
        save_last_good inp.target.key ch inp.lastGood0 inp.lastGoodWrite }
  | (none, f, log) =>
    if inp.retries * 2 ≤ f then
      let r3 := discover_servers inp.upstream q2 (some emptyRawStore)
      { discPhase := dp, candOrder := cand3, attemptLog := log, failures := f,
        success := none, result := none,
        healPhase := [Event.invalidate, Event.discovery r3.1],
        cacheMid := c2, queryMid := q2, cacheFinal := r3.2.1,
        lastGoodFinal := inp.lastGood0 }
    else
      { discPhase := dp, candOrder := cand3, attemptLog := log, failures := f,
        success := none, result := none, healPhase := [],
        cacheMid := c2, queryMid := q2, cacheFinal := c2,
        lastGoodFinal := inp.lastGood0 }

/-- `run_speedtest_dynamic(target, retries)`: discovery phase, candidate
ordering, then the attempt loop and epilogue. -/
def run_speedtest_dynamic (inp : RunInput) : RunOutput :=
  let ph := discPhaseRun inp
  finishRun inp ph.1 (effectiveOrder inp ph.2.1) ph.2.2.1 ph.2.2.2

/- ========= CONCRETE TEST DATA ========= -/

/-- Builder for a well-formed upstream candidate record tagged with the UAE
country string. -/
def uaeCand (i : Int) (sp nm : String) : RawEntry :=
  ⟨IdField.ok i, some sp, some nm, some "United Arab Emirates"⟩

/-- The five-candidate upstream batch of the end-to-end classification
scenario. -/
def cands8 : List RawEntry :=
  [uaeCand 2001 "e& UAE" "Node1", uaeCand 2002 "du" "Node2",
   uaeCand 2003 "du" "Node3", uaeCand 2004 "Etisalat" "Node4",
   uaeCand 2005 "Random ISP" "Node5"]

/-- The classified endpoint with id 2001. -/
def ep2001 : Endpoint :=
  ⟨2001, some "e& UAE", some "Node1", some "United Arab Emirates"⟩

/-- The classified endpoint with id 2002. -/
def ep2002 : Endpoint :=
  ⟨2002, some "du", some "Node2", some "United Arab Emirates"⟩

/-- The classified endpoint with id 2003. -/
def ep2003 : Endpoint :=
  ⟨2003, some "du", some "Node3", some "United Arab Emirates"⟩

/-- The classified endpoint with id 2004. -/
def ep2004 : Endpoint :=
  ⟨2004, some "Etisalat", some "Node4", some "United Arab Emirates"⟩

/-- A region-matching candidate whose id field does not parse as an
integer. -/
def badUAE : RawEntry := ⟨IdField.bad, some "Etisalat", some "NodeB", some "UAE"⟩

/-- A well-formed, classifiable du candidate. -/
def goodDu : RawEntry := ⟨IdField.ok 2500, some "du", some "NodeG", some "UAE"⟩

/-- Concrete etisalat endpoint with id 1010. -/
def eA : Endpoint := ⟨1010, some "e& UAE", some "NodeA", some "UAE"⟩

/-- Concrete etisalat endpoint with id 1020. -/
def eB : Endpoint := ⟨1020, some "e& UAE", some "NodeB", some "UAE"⟩

/-- Concrete etisalat endpoint with id 1030. -/
def eC : Endpoint := ⟨1030, some "e& UAE", some "NodeC", some "UAE"⟩

/-- Concrete du endpoint with id 1090. -/
def eD : Endpoint := ⟨1090, some "du", some "NodeD", some "UAE"⟩

/-- A concrete successful measurement outcome: latency 5 ms, 50 Mbit/s down,
20 Mbit/s up, 30 s duration. -/
def outcome5 : Outcome := ⟨some 5, 50000000, 20000000, 30⟩

/- ========= HELPER LEMMAS ========= -/

lemma lookup_setterMap_self (d : List (String × Endpoint)) (k : String)
    (v : Endpoint) (hany : d.any (fun p => p.1 == k) = true) :
    (d.map (fun p => if p.1 == k then (k, v) else p)).lookup k = some v := by
  induction d with
  | nil => simp at hany
  | cons p t ih =>
    by_cases hp : p.1 = k
    · have hp' : (p.1 == k) = true := beq_iff_eq.mpr hp
      rw [List.map_cons, if_pos hp']
      simp [List.lookup]
    · have hp' : (p.1 == k) = false := beq_false_of_ne hp
      have hk : (k == p.1) = false := beq_false_of_ne (Ne.symm hp)
      simp only [List.any_cons, hp', Bool.false_or] at hany
      rw [List.map_cons, if_neg (by simp [hp'])]
      simp only [List.lookup, hk]
      exact ih hany

lemma lookup_append_self (d : List (String × Endpoint)) (k : String)
    (v : Endpoint) (hany : d.any (fun p => p.1 == k) = false) :
    (d ++ [(k, v)]).lookup k = some v := by
  induction d with
  | nil => simp [List.lookup]
  | cons p t ih =>
    simp only [List.any_cons, Bool.or_eq_false_iff] at hany
    have hk : (k == p.1) = false := by
      rcases hbe : (k == p.1) with _ | _
      · rfl
      · exact absurd (beq_iff_eq.mpr (beq_iff_eq.mp hbe).symm) (by simp [hany.1])
    rw [List.cons_append]
    simp only [List.lookup, hk]
    exact ih hany.2

lemma lookup_dictSet_self (d : List (String × Endpoint)) (k : String)
    (v : Endpoint) : (dictSet d k v).lookup k = some v := by
  unfold dictSet
  by_cases hany : d.any (fun p => p.1 == k)
  · rw [if_pos hany]; exact lookup_setterMap_self d k v hany
  · rw [if_neg hany]
    exact lookup_append_self d k v (Bool.not_eq_true _ ▸ (Bool.eq_false_iff.mpr hany))

lemma lookup_setterMap_other (d : List (String × Endpoint)) (k k' : String)
    (v : Endpoint) (hne : k' ≠ k) :
    (d.map (fun p => if p.1 == k then (k, v) else p)).lookup k' =
      d.lookup k' := by
  induction d with
  | nil => simp
  | cons p t ih =>
    by_cases hp : p.1 = k
    · have hp' : (p.1 == k) = true := beq_iff_eq.mpr hp
      have h1 : (k' == p.1) = false := beq_false_of_ne (fun h => hne (h.trans hp))
      have h2 : (k' == k) = false := beq_false_of_ne hne
      rw [List.map_cons, if_pos hp']
      simp only [List.lookup, h1, h2]
      exact ih
    · have hp' : (p.1 == k) = false := beq_false_of_ne hp
      rw [List.map_cons, if_neg (by simp [hp'])]
      rcases hbe : (k' == p.1) with _ | _
      · simp only [List.lookup, hbe]
        exact ih
      · simp only [List.lookup, hbe]

lemma lookup_append_other (d : List (String × Endpoint)) (k k' : String)
    (v : Endpoint) (hne : k' ≠ k) :
    (d ++ [(k, v)]).lookup k' = d.lookup k' := by
  induction d with
  | nil =>
    have h2 : (k' == k) = false := beq_false_of_ne hne
    simp [List.lookup, h2]
  | cons p t ih =>
    rw [List.cons_append]
    rcases hbe : (k' == p.1) with _ | _
    · simp only [List.lookup, hbe]
      exact ih
    · simp only [List.lookup, hbe]

lemma lookup_dictSet_other (d : List (String × Endpoint)) (k k' : String)
    (v : Endpoint) (hne : k' ≠ k) :
    (dictSet d k v).lookup k' = d.lookup k' := by
  unfold dictSet
  by_cases hany : d.any (fun p => p.1 == k)
  · rw [if_pos hany]; exact lookup_setterMap_other d k k' v hne
  · rw [if_neg hany]; exact lookup_append_other d k k' v hne

lemma okFilter_mem (lst : Option (List RawEntry)) (e : Endpoint)
    (h : e ∈ okFilter lst) :
    1000 ≤ e.id ∧ ∃ s ∈ lst.getD [], s.id = IdField.ok e.id ∧
      s.sponsor = e.sponsor ∧ s.name = e.name ∧ s.country = e.country := by
  unfold okFilter at h
  rw [List.mem_filterMap] at h
  obtain ⟨s, hs, hse⟩ := h
  rcases hid : s.id with n | _
  · rw [hid] at hse
    simp only at hse
    by_cases h1000 : 1000 ≤ n
    · rw [if_pos h1000] at hse
      obtain rfl := Option.some_injective _ hse
      exact ⟨h1000, s, hs, hid, rfl, rfl, rfl⟩
    · rw [if_neg h1000] at hse
      exact absurd hse (by simp)
  · rw [hid] at hse
    exact absurd hse (by simp)

lemma tryFrom_none (attempt : Endpoint → ℕ → Option Outcome) (ch : Endpoint) :
    ∀ (r a : ℕ), (tryFrom attempt ch a r).1 = none →
      (tryFrom attempt ch a r).2.1 = r ∧
      ∀ x ∈ (tryFrom attempt ch a r).2.2, x.ok = false := by
  intro r
  induction r with
  | zero => intro a _; simp [tryFrom]
  | succ n ih =>
    intro a h1
    rcases hA : attempt ch a with _ | o
    · constructor
      · simp only [tryFrom, hA]
        rw [tryFrom] at h1
        rw [hA] at h1
        simp only at h1
        rw [(ih (a + 1) h1).1]
      · intro x hx
        rw [tryFrom] at hx
        rw [hA] at hx
        simp only [List.mem_cons] at hx
        rcases hx with rfl | hx
        · rfl
        · rw [tryFrom] at h1
          rw [hA] at h1
          exact (ih (a + 1) h1).2 x hx
    · exfalso
      rw [tryFrom] at h1
      rw [hA] at h1
      simp at h1

lemma tryFrom_success (attempt : Endpoint → ℕ → Option Outcome)
    (ch : Endpoint) :
    ∀ (r a : ℕ) (o : Outcome), (tryFrom attempt ch a r).1 = some o →
      ∃ pre b, (tryFrom attempt ch a r).2.2 = pre ++ [⟨ch, b, true⟩] ∧
        ∀ x ∈ pre, x.ok = false := by
  intro r
  induction r with
  | zero => intro a o h; simp [tryFrom] at h
  | succ n ih =>
    intro a o h
    rcases hA : attempt ch a with _ | o'
    · rw [tryFrom] at h
      rw [hA] at h
      simp only at h
      obtain ⟨pre, b, hlog, hpre⟩ := ih (a + 1) o h
      refine ⟨⟨ch, a, false⟩ :: pre, b, ?_, ?_⟩
      · rw [tryFrom]
        rw [hA]
        simp [hlog]
      · intro x hx
        rcases List.mem_cons.mp hx with rfl | hx
        · rfl
        · exact hpre x hx
    · refine ⟨[], a, ?_, by simp⟩
      rw [tryFrom]
      rw [hA]
      simp

lemma candLoop_success (attempt : Endpoint → ℕ → Option Outcome)
    (retries : ℕ) :
    ∀ (l : List Endpoint) (ch : Endpoint) (o : Outcome) (f : ℕ)
      (log : List AttemptRec),
      candLoop attempt retries l = (some (ch, o), f, log) →
      ∃ pre b, log = pre ++ [⟨ch, b, true⟩] ∧ ∀ x ∈ pre, x.ok = false := by
  intro l
  induction l with
  | nil => intro ch o f log h; simp [candLoop] at h
  | cons c rest ih =>
    intro ch o f log h
    rw [candLoop] at h
    rcases hT : tryFrom attempt c 1 retries with ⟨os, ft, logt⟩
    rw [hT] at h
    rcases os with _ | o'
    · simp only [Prod.mk.injEq] at h
      obtain ⟨h1, h2, h3⟩ := h
      obtain ⟨pre, b, hlog, hpre⟩ :=
        ih ch o (candLoop attempt retries rest).2.1
          (candLoop attempt retries rest).2.2 (by rw [← h1])
      refine ⟨logt ++ pre, b, ?_, ?_⟩
      · rw [← h3, hlog, List.append_assoc]
      · intro x hx
        rcases List.mem_append.mp hx with hx | hx
        · have hTnone : (tryFrom attempt c 1 retries).1 = none := by
            rw [hT]
          have hall := (tryFrom_none attempt c retries 1 hTnone).2 x
          rw [hT] at hall
          exact hall hx
        · exact hpre x hx
    · simp only [Prod.mk.injEq, Option.some.injEq] at h
      obtain ⟨⟨rfl, rfl⟩, h2, h3⟩ := h
      have hTsome : (tryFrom attempt c 1 retries).1 = some o' := by
        rw [hT]
      obtain ⟨pre, b, hl, hp⟩ := tryFrom_success attempt c retries 1 o' hTsome
      refine ⟨pre, b, ?_, hp⟩
      rw [hT] at hl
      rw [← h3]
      exact hl

lemma run_eq (inp : RunInput) :
    run_speedtest_dynamic inp =
      finishRun inp (discPhaseRun inp).1
        (effectiveOrder inp (discPhaseRun inp).2.1)
        (discPhaseRun inp).2.2.1 (discPhaseRun inp).2.2.2 := rfl

lemma finishRun_succ (inp : RunInput) (dp : List Event)
    (cand3 : List Endpoint) (c2 : Option RawStore) (q2 : ℕ) (ch : Endpoint)
    (o : Outcome) (f : ℕ) (log : List AttemptRec)
    (h : candLoop inp.attempt inp.retries (cand3.take 3) =
      (some (ch, o), f, log)) :
    finishRun inp dp cand3 c2 q2 =
      { discPhase := dp, candOrder := cand3, attemptLog := log, failures := f,
        success := some (ch, o),
        result := some (buildResult inp.target inp.threads ch o),
        healPhase := [], cacheMid := c2, queryMid := q2, cacheFinal := c2,
        lastGoodFinal :=
          save_last_good inp.target.key ch inp.lastGood0 inp.lastGoodWrite } := by
  unfold finishRun
  rw [h]

lemma finishRun_fail_heal (inp : RunInput) (dp : List Event)
    (cand3 : List Endpoint) (c2 : Option RawStore) (q2 : ℕ) (f : ℕ)
    (log : List AttemptRec)
    (h : candLoop inp.attempt inp.retries (cand3.take 3) = (none, f, log))
    (hf : inp.retries * 2 ≤ f) :
    finishRun inp dp cand3 c2 q2 =
      { discPhase := dp, candOrder := cand3, attemptLog := log, failures := f,
        success := none, result := none,
        healPhase := [Event.invalidate,
          Event.discovery
            (discover_servers inp.upstream q2 (some emptyRawStore)).1],
        cacheMid := c2, queryMid := q2,
        cacheFinal := (discover_servers inp.upstream q2 (some emptyRawStore)).2.1,
        lastGoodFinal := inp.lastGood0 } := by
  unfold finishRun
  rw [h]
  simp only [if_pos hf]

lemma finishRun_fail_noheal (inp : RunInput) (dp : List Event)
    (cand3 : List Endpoint) (c2 : Option RawStore) (q2 : ℕ) (f : ℕ)
    (log : List AttemptRec)
    (h : candLoop inp.attempt inp.retries (cand3.take 3) = (none, f, log))
    (hf : ¬ inp.retries * 2 ≤ f) :
    finishRun inp dp cand3 c2 q2 =
      { discPhase := dp, candOrder := cand3, attemptLog := log, failures := f,
        success := none, result := none, healPhase := [],
        cacheMid := c2, queryMid := q2, cacheFinal := c2,
        lastGoodFinal := inp.lastGood0 } := by
  unfold finishRun
  rw [h]
  simp only [if_neg hf]

lemma run_success_inv (inp : RunInput) (ch : Endpoint) (o : Outcome)
    (h : (run_speedtest_dynamic inp).success = some (ch, o)) :
    ∃ f log,
      candLoop inp.attempt inp.retries
          ((effectiveOrder inp (discPhaseRun inp).2.1).take 3) =
        (some (ch, o), f, log) ∧
      run_speedtest_dynamic inp =
        { discPhase := (discPhaseRun inp).1,
          candOrder := effectiveOrder inp (discPhaseRun inp).2.1,
          attemptLog := log, failures := f,
          success := some (ch, o),
          result := some (buildResult inp.target inp.threads ch o),
          healPhase := [], cacheMid := (discPhaseRun inp).2.2.1,
          queryMid := (discPhaseRun inp).2.2.2,
          cacheFinal := (discPhaseRun inp).2.2.1,
          lastGoodFinal :=
            save_last_good inp.target.key ch inp.lastGood0 inp.lastGoodWrite } := by
  rcases hcl : candLoop inp.attempt inp.retries
      ((effectiveOrder inp (discPhaseRun inp).2.1).take 3) with ⟨os, f, log⟩
  rcases os with _ | p
  · by_cases hf : inp.retries * 2 ≤ f
    · rw [run_eq inp, finishRun_fail_heal inp _ _ _ _ f log hcl hf] at h
      simp at h
    · rw [run_eq inp, finishRun_fail_noheal inp _ _ _ _ f log hcl hf] at h
      simp at h
  · rcases p with ⟨ch', o'⟩
    have hrun := run_eq inp
    rw [finishRun_succ inp _ _ _ _ ch' o' f log hcl] at hrun
    rw [hrun] at h
    simp only [Option.some.injEq, Prod.mk.injEq] at h
    obtain ⟨rfl, rfl⟩ := h
    exact ⟨f, log, rfl, hrun⟩

/- ========= CLAIM THEOREMS ========= -/

/-- Cache store holding etisalat endpoints `eA, eB` and du endpoint `eD`. -/
def cacheAB : RawStore := poolToRawStore ⟨[eA, eB], [eD]⟩

/-- Run input exercising the preferred-endpoint pin: the cache yields
`[eA, eB]` for etisalat, the tracker remembers `eB`, every attempt fails,
and the shuffle outcome happens to reverse the list. -/
def inpC1 : RunInput :=
  { target := .etisalat, retries := 2, threads := 4,
    cache0 := some cacheAB, lastGood0 := .ok [("etisalat", eB)],
    upstream := fun _ => none, shuffle := List.reverse,
    attempt := fun _ _ => none, lastGoodWrite := .success }

/-- Claim C1: the preferred endpoint `eB` is stored for etisalat and appears
in the discovered candidate sequence, yet for the shuffle outcome that
reverses the list (a legitimate permutation, as `random.shuffle` permutes the
WHOLE list after the preferred endpoint was prepended at line 216) the
effective candidate order the runner iterates is `[eA, eB]`: the preferred
endpoint is not first.  It does still occur exactly once (the duplicate
removal at line 214 survives the shuffle).  This refutes the claim that the
preferred endpoint is placed first for every outcome of the random shuffle,
and contradicts the code's own log message "Using last known good server
first". -/
theorem C1_shuffle_displaces_preferred :
    (load_last_good inpC1.lastGood0).lookup inpC1.target.key = some eB ∧
    eB ∈ (discover_servers inpC1.upstream 0 inpC1.cache0).1.get inpC1.target ∧
    (inpC1.shuffle [eB, eA]).Perm [eB, eA] ∧
    (run_speedtest_dynamic inpC1).candOrder = [eA, eB] ∧
    (run_speedtest_dynamic inpC1).candOrder.head? = some eA ∧
    ((run_speedtest_dynamic inpC1).candOrder.head? == some eB) = false ∧
    (run_speedtest_dynamic inpC1).candOrder.count eB = 1 := by
  refine ⟨by decide, by decide, ?_, by decide, by decide, by decide, by decide⟩
  exact List.reverse_perm [eB, eA]

/-- Claim C8: classifying the five-candidate UAE batch buckets ids 2001 and
2004 to etisalat and ids 2002 and 2003 to du, in order; the "Random ISP"
candidate with id 2005 lands in neither bucket; with an absent cache,
`discover_servers` returns and caches exactly this pool. -/
theorem C8_classification :
    classifyBatch cands8 = some ([ep2001, ep2004], [ep2002, ep2003]) ∧
    discover_servers (fun _ => some cands8) 0 none =
      (⟨[ep2001, ep2004], [ep2002, ep2003]⟩,
       some (poolToRawStore ⟨[ep2001, ep2004], [ep2002, ep2003]⟩), 1) ∧
    ([ep2001, ep2004] ++ [ep2002, ep2003]).all (fun e => e.id != 2005) = true := by
  refine ⟨by decide, by decide, by decide⟩

/-- Claim C3: `load_cached_servers` returns a pool exactly when the store
parses and both provider keys filter to a non-empty endpoint list; the
returned pool is exactly the filtered one, and every endpoint in it has an
id that parsed and is at least 1000 (entries with invalid ids never
appear).  Totality of the Lean function mirrors the `try`/`except` that
makes the Python function never raise. -/
theorem C3_load_cache (store : Option RawStore) :
    ((load_cached_servers store).isSome = true ↔
      ∃ d, store = some d ∧
        okFilter d.etisalat ≠ [] ∧ okFilter d.du ≠ []) ∧
    (∀ p, load_cached_servers store = some p →
      ∃ d, store = some d ∧
        p = ⟨okFilter d.etisalat, okFilter d.du⟩) ∧
    (∀ p e, load_cached_servers store = some p →
      e ∈ p.etisalat ∨ e ∈ p.du → 1000 ≤ e.id) := by
  rcases store with _ | d
  · refine ⟨?_, ?_, ?_⟩
    · simp [load_cached_servers]
    · intro p hp; simp [load_cached_servers] at hp
    · intro p e hp; simp [load_cached_servers] at hp
  · by_cases hc : ((okFilter d.etisalat).isEmpty || (okFilter d.du).isEmpty) = true
    · have hload : load_cached_servers (some d) = none := by
        simp only [load_cached_servers]
        rw [if_pos hc]
      refine ⟨?_, ?_, ?_⟩
      · rw [hload]
        simp only [Option.isSome_none, Bool.false_eq_true, false_iff]
        rintro ⟨d', hd', h1, h2⟩
        obtain rfl := Option.some_injective _ hd'
        rcases Bool.or_eq_true_iff.mp hc with hx | hx
        · exact h1 (List.isEmpty_iff.mp hx)
        · exact h2 (List.isEmpty_iff.mp hx)
      · intro p hp; rw [hload] at hp; exact absurd hp (by simp)
      · intro p e hp; rw [hload] at hp; exact absurd hp (by simp)
    · have hload : load_cached_servers (some d) =
          some ⟨okFilter d.etisalat, okFilter d.du⟩ := by
        simp only [load_cached_servers]
        rw [if_neg hc]
      simp only [Bool.or_eq_true_iff, not_or, Bool.not_eq_true] at hc
      refine ⟨?_, ?_, ?_⟩
      · rw [hload]
        simp only [Option.isSome_some, true_iff]
        exact ⟨d, rfl,
          fun h => by simp [h] at hc,
          fun h => by simp [h] at hc⟩
      · intro p hp
        rw [hload] at hp
        exact ⟨d, rfl, (Option.some_injective _ hp).symm⟩
      · intro p e hp hmem
        rw [hload] at hp
        obtain rfl := Option.some_injective _ hp
        rcases hmem with hm | hm
        · exact (okFilter_mem d.etisalat e hm).1
        · exact (okFilter_mem d.du e hm).1

/-- Raw cache store with one valid etisalat entry (id 1205), one entry whose
id does not parse, one entry with id 500 (below the sentinel), and one valid
du entry. -/
def dW : RawStore :=
  ⟨some [⟨IdField.ok 1205, some "e& UAE", some "NodeW", some "UAE"⟩,
         ⟨IdField.bad, none, none, none⟩,
         ⟨IdField.ok 500, some "e& UAE", some "Low", some "UAE"⟩],
   some [⟨IdField.ok 1692, some "du", some "NodeD", some "UAE"⟩]⟩

/-- The valid etisalat endpoint surviving the filter of `dW`. -/
def epW : Endpoint := ⟨1205, some "e& UAE", some "NodeW", some "UAE"⟩

/-- The pool `load_cached_servers` returns for `dW`: the invalid entries are
dropped. -/
def pW : Pool := ⟨[epW], [⟨1692, some "du", some "NodeD", some "UAE"⟩]⟩

/-- Witness for C3 at the concrete store `dW`. -/
theorem C3_load_cache_witness :
    load_cached_servers (some dW) = some pW ∧ 1000 ≤ epW.id :=
  ⟨by decide,
   (C3_load_cache (some dW)).2.2 pW epW (by decide) (Or.inl (by decide))⟩

/-- Claim C5 counterexample: the batch `[badUAE, goodDu]` contains one
region-matching candidate whose id does not parse alongside one well-formed
classifiable candidate, and `discover_servers` (cache absent) falls into
the total-failure branch: it returns empty sequences for both providers
and caches nothing, discarding the whole batch. -/
theorem C5_counterexample :
    regionMatch badUAE = true ∧ badUAE.id = IdField.bad ∧
    regionMatch goodDu = true ∧ keywordMatch duKeywords goodDu = true ∧
    classifyBatch [badUAE, goodDu] = none ∧
    discover_servers (fun _ => some [badUAE, goodDu]) 0 none =
      (⟨[], []⟩, none, 1) := by
  refine ⟨by decide, by decide, by decide, by decide, by decide, by decide⟩

/-- Claim C5 amended: a candidate failing the region filter is skipped
individually (whatever its id field holds), but a region-matching candidate
whose id does not parse aborts classification of the entire batch, and
`discover_servers` then returns the all-empty pool, leaving the cache
unwritten. -/
theorem C5_malformed (c : RawEntry) (rest : List RawEntry) :
    (regionMatch c = false → classifyBatch (c :: rest) = classifyBatch rest) ∧
    (regionMatch c = true → c.id = IdField.bad →
      classifyBatch (c :: rest) = none ∧
      ∀ (up : ℕ → Option (List RawEntry)) (qi : ℕ) (cache : Option RawStore),
        load_cached_servers cache = none → up qi = some (c :: rest) →
        discover_servers up qi cache = (⟨[], []⟩, cache, qi + 1)) := by
  constructor
  · intro h
    simp [classifyBatch, h]
  · intro h hbad
    have hcl : classifyBatch (c :: rest) = none := by
      simp only [classifyBatch]
      rw [h, hbad]
      simp
    refine ⟨hcl, fun up qi cache hc hup => ?_⟩
    simp only [discover_servers, hc, hup, hcl]

/-- A candidate outside the region: its malformed id is never reached. -/
def nonRegion : RawEntry := ⟨IdField.bad, some "Etisalat", some "NodeX", some "Germany"⟩

/-- Witness for the amended C5 at concrete candidates. -/
theorem C5_malformed_witness :
    classifyBatch [nonRegion, goodDu] = classifyBatch [goodDu] ∧
    classifyBatch [badUAE, goodDu] = none :=
  ⟨(C5_malformed nonRegion [goodDu]).1 (by decide),
   ((C5_malformed badUAE [goodDu]).2 (by decide) (by decide)).1⟩

/-- Claim C6: with an absent/invalid cache and a successful upstream query
whose batch classifies without error, each provider bucket that ends up
empty is replaced by exactly its one hardcoded fallback endpoint (a
non-empty bucket is kept as is), the resulting pool is non-empty for both
providers, and exactly that pool is written to the cache. -/
theorem C6_fallback (up : ℕ → Option (List RawEntry)) (qi : ℕ)
    (cache : Option RawStore) (batch : List RawEntry) (et d : List Endpoint)
    (hc : load_cached_servers cache = none)
    (hup : up qi = some batch)
    (hcl : classifyBatch batch = some (et, d)) :
    (discover_servers up qi cache).1.etisalat =
      (if et.isEmpty then [fallbackEt] else et) ∧
    (discover_servers up qi cache).1.du =
      (if d.isEmpty then [fallbackDu] else d) ∧
    (discover_servers up qi cache).1.etisalat.isEmpty = false ∧
    (discover_servers up qi cache).1.du.isEmpty = false ∧
    (discover_servers up qi cache).2.1 =
      some (poolToRawStore (discover_servers up qi cache).1) := by
  have hd : discover_servers up qi cache =
      (⟨if et.isEmpty then [fallbackEt] else et,
        if d.isEmpty then [fallbackDu] else d⟩,
       some (poolToRawStore
         ⟨if et.isEmpty then [fallbackEt] else et,
          if d.isEmpty then [fallbackDu] else d⟩), qi + 1) := by
    simp only [discover_servers, hc, hup, hcl]
  rw [hd]
  refine ⟨rfl, rfl, ?_, ?_, rfl⟩
  · rcases et with _ | ⟨a, t⟩ <;> simp
  · rcases d with _ | ⟨a, t⟩ <;> simp

/-- Witness for C6: an upstream query returning an empty batch yields the
two fallback endpoints. -/
theorem C6_fallback_witness :
    (discover_servers (fun _ => some []) 0 none).1.etisalat = [fallbackEt] ∧
    (discover_servers (fun _ => some []) 0 none).1.du = [fallbackDu] ∧
    (discover_servers (fun _ => some []) 0 none).1.etisalat.isEmpty = false :=
  ⟨(C6_fallback (fun _ => some []) 0 none [] [] [] rfl rfl rfl).1,
   (C6_fallback (fun _ => some []) 0 none [] [] [] rfl rfl rfl).2.1,
   (C6_fallback (fun _ => some []) 0 none [] [] [] rfl rfl rfl).2.2.1⟩

/-- Claim C10 counterexample: `save_last_good` on an unreadable (corrupt)
store with a succeeding write does NOT leave the store as it was — it
overwrites it with a record holding only the provider just written. -/
theorem C10_counterexample :
    save_last_good "etisalat" eB StoreState.corrupt WriteResult.success =
      StoreState.ok [("etisalat", eB)] ∧
    ((StoreState.ok [("etisalat", eB)] : StoreState) ==
      StoreState.corrupt) = false := by
  refine ⟨by decide, by decide⟩

/-- Claim C10 amended: `save_last_good` is a read-modify-write of the record
returned by `load_last_good` (which is empty when the read fails): after a
successful write the stored record maps the given provider to the given
endpoint and every other key reads as before; when the read failed, the new
record holds only the given provider (prior contents are discarded).  The
operation never raises, but a failed write leaves the store as it was only
when the failure occurs at opening the file; a failure after the truncating
`open(..., "w")` leaves the store corrupt — subsequent reads return the
empty record, not the prior contents. -/
theorem C10_read_modify_write (isp : String) (e : Endpoint) (st : StoreState)
    (w : WriteResult) :
    (w = WriteResult.openFail → save_last_good isp e st w = st) ∧
    (w = WriteResult.dumpFail →
      save_last_good isp e st w = StoreState.corrupt ∧
      load_last_good (save_last_good isp e st w) = []) ∧
    (w = WriteResult.success →
      save_last_good isp e st w =
        StoreState.ok (dictSet (load_last_good st) isp e) ∧
      (dictSet (load_last_good st) isp e).lookup isp = some e ∧
      (∀ k, k ≠ isp →
        (dictSet (load_last_good st) isp e).lookup k =
          (load_last_good st).lookup k) ∧
      ((st = StoreState.corrupt ∨ st = StoreState.absent) →
        dictSet (load_last_good st) isp e = [(isp, e)])) := by
  refine ⟨?_, ?_, ?_⟩
  · intro h
    simp [save_last_good, h]
  · intro h
    subst h
    exact ⟨rfl, rfl⟩
  · intro h
    refine ⟨by simp [save_last_good, h], lookup_dictSet_self _ _ _,
      fun k hk => lookup_dictSet_other _ _ _ _ hk, ?_⟩
    rintro (rfl | rfl) <;> simp [load_last_good, dictSet]

/-- Witness for the amended C10: a successful write of etisalat's entry into
a store that already holds a du entry appends it and leaves the du entry
readable; a write that fails after the truncating open leaves the store
corrupt rather than as it was. -/
theorem C10_read_modify_write_witness :
    save_last_good "etisalat" eB (StoreState.ok [("du", eD)])
        WriteResult.success =
      StoreState.ok [("du", eD), ("etisalat", eB)] ∧
    (dictSet (load_last_good (StoreState.ok [("du", eD)])) "etisalat"
      eB).lookup "du" = some eD ∧
    save_last_good "etisalat" eB (StoreState.ok [("du", eD)])
        WriteResult.dumpFail = StoreState.corrupt := by
  have h := (C10_read_modify_write "etisalat" eB (StoreState.ok [("du", eD)])
    WriteResult.success).2.2 rfl
  have hd := (C10_read_modify_write "etisalat" eB (StoreState.ok [("du", eD)])
    WriteResult.dumpFail).2.1 rfl
  refine ⟨?_, ?_, hd.1⟩
  · rw [h.1]; decide
  · rw [h.2.2.1 "du" (by decide)]; decide

/-- Claim C2: when no attempt succeeded, the runner self-heals exactly when
the accumulated failure count reaches `2 * retries`: it writes the empty
store (cache invalidation) and runs discovery once more, whose cache effect
is the final cache state and whose pool is discarded (the result stays
absent); below the threshold neither the invalidation nor the extra
discovery happens and the cache is left as the discovery phase left it. -/
theorem C2_self_healing (inp : RunInput)
    (h : (run_speedtest_dynamic inp).result = none) :
    (inp.retries * 2 ≤ (run_speedtest_dynamic inp).failures →
      (run_speedtest_dynamic inp).healPhase =
        [Event.invalidate,
         Event.discovery (discover_servers inp.upstream
           (run_speedtest_dynamic inp).queryMid (some emptyRawStore)).1] ∧
      (run_speedtest_dynamic inp).cacheFinal =
        (discover_servers inp.upstream (run_speedtest_dynamic inp).queryMid
          (some emptyRawStore)).2.1) ∧
    ((run_speedtest_dynamic inp).failures < inp.retries * 2 →
      (run_speedtest_dynamic inp).healPhase = [] ∧
      (run_speedtest_dynamic inp).cacheFinal =
        (run_speedtest_dynamic inp).cacheMid) := by
  rcases hcl : candLoop inp.attempt inp.retries
      ((effectiveOrder inp (discPhaseRun inp).2.1).take 3) with ⟨os, f, log⟩
  rcases os with _ | p
  · by_cases hf : inp.retries * 2 ≤ f
    · have hr := run_eq inp
      rw [finishRun_fail_heal inp _ _ _ _ f log hcl hf] at hr
      rw [hr]
      constructor
      · intro _
        exact ⟨rfl, rfl⟩
      · intro hlt
        exact absurd hlt (not_lt.mpr hf)
    · have hr := run_eq inp
      rw [finishRun_fail_noheal inp _ _ _ _ f log hcl hf] at hr
      rw [hr]
      constructor
      · intro hge
        exact absurd hge hf
      · intro _
        exact ⟨rfl, rfl⟩
  · rcases p with ⟨ch, o⟩
    have hr := run_eq inp
    rw [finishRun_succ inp _ _ _ _ ch o f log hcl] at hr
    rw [hr] at h
    exact absurd h (by simp)

/-- Cache store holding the three etisalat endpoints `eA, eB, eC` and the du
endpoint `eD`. -/
def cacheABC : RawStore := poolToRawStore ⟨[eA, eB, eC], [eD]⟩

/-- Run input where every attempt on every candidate fails: three
candidates at two retries each accumulate six failures. -/
def inpC2 : RunInput :=
  { target := .etisalat, retries := 2, threads := 4,
    cache0 := some cacheABC, lastGood0 := .absent,
    upstream := fun _ => none, shuffle := id,
    attempt := fun _ _ => none, lastGoodWrite := .success }

/-- Witness for C2: six failures reach the threshold of four and trigger
the invalidation plus one discarded discovery run. -/
theorem C2_self_healing_witness :
    (run_speedtest_dynamic inpC2).result = none ∧
    inpC2.retries * 2 ≤ (run_speedtest_dynamic inpC2).failures ∧
    (run_speedtest_dynamic inpC2).healPhase =
      [Event.invalidate, Event.discovery ⟨[], []⟩] := by
  have h := (C2_self_healing inpC2 (by decide)).1 (by decide)
  exact ⟨by decide, by decide, by rw [h.1]; decide⟩

/-- Run input where discovery yields no candidates twice, but the
Preferred-Endpoint Tracker holds `eB` for etisalat and the attempt on it
succeeds. -/
def inpC4 : RunInput :=
  { target := .etisalat, retries := 2, threads := 4,
    cache0 := none, lastGood0 := .ok [("etisalat", eB)],
    upstream := fun _ => none, shuffle := id,
    attempt := fun _ _ => some outcome5, lastGoodWrite := .success }

/-- Claim C4 counterexample: discovery returns an empty candidate sequence
both times (the invalidate / pause / re-discover sequence does happen), yet
the runner does NOT proceed with an empty sequence: the remembered last-good
endpoint is prepended at line 214, attempted, and succeeds, so a measurement
attempt is performed and a result — not absent — is returned. -/
theorem C4_counterexample :
    (run_speedtest_dynamic inpC4).discPhase =
      [Event.discovery ⟨[], []⟩, Event.invalidate, Event.sleepSecs 3,
       Event.discovery ⟨[], []⟩] ∧
    (run_speedtest_dynamic inpC4).attemptLog = [⟨eB, 1, true⟩] ∧
    (run_speedtest_dynamic inpC4).result.isSome = true := by
  refine ⟨by decide, by decide, by decide⟩

/-- Claim C4 amended: when discovery yields an empty candidate sequence for
the provider, the runner invalidates the cache, pauses, and re-invokes
discovery exactly once; if the sequence is still empty AND the
Preferred-Endpoint Tracker has no record for the provider (otherwise that
endpoint is still prepended and attempted), the runner proceeds with an
empty sequence, performs no measurement attempt, and returns absent. -/
theorem C4_no_candidates (inp : RunInput)
    (hshuf : ∀ l, (inp.shuffle l).Perm l)
    (h1 : (discover_servers inp.upstream 0 inp.cache0).1.get inp.target = [])
    (h2 : (discover_servers inp.upstream
        (discover_servers inp.upstream 0 inp.cache0).2.2
        (some emptyRawStore)).1.get inp.target = [])
    (h3 : (load_last_good inp.lastGood0).lookup inp.target.key = none) :
    (run_speedtest_dynamic inp).discPhase =
      [Event.discovery (discover_servers inp.upstream 0 inp.cache0).1,
       Event.invalidate, Event.sleepSecs 3,
       Event.discovery (discover_servers inp.upstream
         (discover_servers inp.upstream 0 inp.cache0).2.2
         (some emptyRawStore)).1] ∧
    (run_speedtest_dynamic inp).candOrder = [] ∧
    (run_speedtest_dynamic inp).attemptLog = [] ∧
    (run_speedtest_dynamic inp).result = none := by
  have hdp : discPhaseRun inp =
      ([Event.discovery (discover_servers inp.upstream 0 inp.cache0).1,
        Event.invalidate, Event.sleepSecs 3,
        Event.discovery (discover_servers inp.upstream
          (discover_servers inp.upstream 0 inp.cache0).2.2
          (some emptyRawStore)).1],
       [],
       (discover_servers inp.upstream
         (discover_servers inp.upstream 0 inp.cache0).2.2
         (some emptyRawStore)).2.1,
       (discover_servers inp.upstream
         (discover_servers inp.upstream 0 inp.cache0).2.2
         (some emptyRawStore)).2.2) := by
    simp only [discPhaseRun, h1, h2]
    simp
  have heo : effectiveOrder inp [] = [] := by
    have hp : (inp.shuffle []).Perm [] := by
      have := hshuf []
      simpa using this
    simp only [effectiveOrder, h3]
    exact List.Perm.eq_nil hp
  have hr : run_speedtest_dynamic inp =
      finishRun inp (discPhaseRun inp).1
        (effectiveOrder inp (discPhaseRun inp).2.1)
        (discPhaseRun inp).2.2.1 (discPhaseRun inp).2.2.2 := run_eq inp
  rw [hdp] at hr
  simp only [heo] at hr
  have hcl : candLoop inp.attempt inp.retries
      (List.take 3 ([] : List Endpoint)) = (none, 0, []) := rfl
  by_cases hf : inp.retries * 2 ≤ 0
  · rw [finishRun_fail_heal inp _ _ _ _ 0 [] hcl hf] at hr
    rw [hr]
    exact ⟨rfl, rfl, rfl, rfl⟩
  · rw [finishRun_fail_noheal inp _ _ _ _ 0 [] hcl hf] at hr
    rw [hr]
    exact ⟨rfl, rfl, rfl, rfl⟩

/-- Run input with absent cache, failing upstream, and no last-good record:
the no-candidates hard stop. -/
def inpC4w : RunInput :=
  { target := .etisalat, retries := 2, threads := 4,
    cache0 := none, lastGood0 := .absent,
    upstream := fun _ => none, shuffle := id,
    attempt := fun _ _ => none, lastGoodWrite := .success }

/-- Witness for the amended C4 at the concrete input `inpC4w`. -/
theorem C4_no_candidates_witness :
    (run_speedtest_dynamic inpC4w).discPhase =
      [Event.discovery ⟨[], []⟩, Event.invalidate, Event.sleepSecs 3,
       Event.discovery ⟨[], []⟩] ∧
    (run_speedtest_dynamic inpC4w).attemptLog = [] ∧
    (run_speedtest_dynamic inpC4w).result = none := by
  have h := C4_no_candidates inpC4w (fun l => List.Perm.refl l)
    (by decide) (by decide) (by decide)
  exact ⟨by rw [h.1]; decide, h.2.2.1, h.2.2.2⟩

/-- Claim C7: when some attempt succeeds, the runner returns immediately a
result whose identity and descriptive fields are the successful candidate's,
updates the last-good tracker for the provider to that candidate (when the
write goes through, the stored entry reads back as that candidate), performs
no self-healing, and the successful attempt is the LAST entry of the attempt
log — every earlier logged attempt is a failure, and no attempt follows it. -/
theorem C7_success_short_circuit (inp : RunInput) (ch : Endpoint)
    (o : Outcome)
    (h : (run_speedtest_dynamic inp).success = some (ch, o)) :
    (run_speedtest_dynamic inp).result =
      some (buildResult inp.target inp.threads ch o) ∧
    (buildResult inp.target inp.threads ch o).server_id = ch.id ∧
    (buildResult inp.target inp.threads ch o).speedtest_server = ch.name ∧
    (buildResult inp.target inp.threads ch o).speedtest_sponsor = ch.sponsor ∧
    (buildResult inp.target inp.threads ch o).speedtest_country = ch.country ∧
    (run_speedtest_dynamic inp).healPhase = [] ∧
    (run_speedtest_dynamic inp).lastGoodFinal =
      save_last_good inp.target.key ch inp.lastGood0 inp.lastGoodWrite ∧
    (inp.lastGoodWrite = WriteResult.success →
      (load_last_good (run_speedtest_dynamic inp).lastGoodFinal).lookup
        inp.target.key = some ch) ∧
    ∃ pre b, (run_speedtest_dynamic inp).attemptLog =
        pre ++ [⟨ch, b, true⟩] ∧ ∀ x ∈ pre, x.ok = false := by
  obtain ⟨f, log, hcl, hrun⟩ := run_success_inv inp ch o h
  rw [hrun]
  refine ⟨rfl, rfl, rfl, rfl, rfl, rfl, rfl, ?_, ?_⟩
  · intro hw
    rw [hw]
    exact lookup_dictSet_self _ _ _
  · exact candLoop_success inp.attempt inp.retries _ ch o f log hcl

/-- Run input realizing the failover scenario: candidates `[eA, eB, eC]`,
attempts on `eA` and `eB` always fail, attempts on `eC` always succeed,
retry limit 2. -/
def inpC7 : RunInput :=
  { target := .etisalat, retries := 2, threads := 4,
    cache0 := some cacheABC, lastGood0 := .absent,
    upstream := fun _ => none, shuffle := id,
    attempt := fun e _ => if e.id == 1030 then some outcome5 else none,
    lastGoodWrite := .success }

/-- Witness for C7: the result is attributed to the third endpoint `eC` and
the last-good record becomes `eC`. -/
theorem C7_success_short_circuit_witness :
    (run_speedtest_dynamic inpC7).success = some (eC, outcome5) ∧
    (run_speedtest_dynamic inpC7).result =
      some (buildResult Provider.etisalat 4 eC outcome5) ∧
    (buildResult Provider.etisalat 4 eC outcome5).server_id = 1030 ∧
    (load_last_good (run_speedtest_dynamic inpC7).lastGoodFinal).lookup
      "etisalat" = some eC := by
  have h := C7_success_short_circuit inpC7 eC outcome5 (by decide)
  exact ⟨by decide, h.1, by decide, h.2.2.2.2.2.2.2.1 rfl⟩

/-- Claim C9: on a successful attempt the result's `latency_ms` is the
best-server latency rounded to two decimals exactly when that latency is
present and non-zero; a reported latency of exactly 0 and a missing latency
both yield `latency_ms = None`, making a genuine zero latency
indistinguishable from a missing one at the public interface. -/
theorem C9_latency_truthiness (inp : RunInput) (ch : Endpoint) (o : Outcome)
    (h : (run_speedtest_dynamic inp).success = some (ch, o)) :
    ∃ r, (run_speedtest_dynamic inp).result = some r ∧
      r.latency_ms = (match o.latency with
        | some l => if l ≠ 0 then some (pyRound2 l) else none
        | none => none) ∧
      ((o.latency = some 0 ∨ o.latency = none) → r.latency_ms = none) ∧
      (∀ l, o.latency = some l → l ≠ 0 → r.latency_ms = some (pyRound2 l)) := by
  obtain ⟨f, log, hcl, hrun⟩ := run_success_inv inp ch o h
  rw [hrun]
  refine ⟨buildResult inp.target inp.threads ch o, rfl, rfl, ?_, ?_⟩
  · rintro (h0 | h0) <;> simp [buildResult, h0]
  · intro l hl hne
    simp [buildResult, hl, hne]

/-- A successful outcome whose reported latency is exactly 0. -/
def outcomeZ : Outcome := ⟨some 0, 50000000, 20000000, 30⟩

/-- Run input whose first attempt succeeds with a zero reported latency. -/
def inpC9 : RunInput :=
  { target := .etisalat, retries := 2, threads := 4,
    cache0 := some cacheAB, lastGood0 := .absent,
    upstream := fun _ => none, shuffle := id,
    attempt := fun _ _ => some outcomeZ, lastGoodWrite := .success }

/-- Witness for C9: a measured zero latency surfaces as `latency_ms = none`. -/
theorem C9_latency_truthiness_witness :
    (run_speedtest_dynamic inpC9).result =
      some (buildResult Provider.etisalat 4 eA outcomeZ) ∧
    (buildResult Provider.etisalat 4 eA outcomeZ).latency_ms = none := by
  obtain ⟨r, hr, heq, hz, hnz⟩ :=
    C9_latency_truthiness inpC9 eA outcomeZ (by decide)
  have hr2 : (run_speedtest_dynamic inpC9).result =
      some (buildResult Provider.etisalat 4 eA outcomeZ) := by rfl
  obtain rfl := Option.some_injective _ (hr.symm.trans hr2)
  exact ⟨hr2, hz (Or.inl rfl)⟩

end Netlogger
